import Mathlib

/-!
The WebSocket route handler of container-web-tty (route/handler.go).

A shallow embedding of `generateHandleWS`, `processWSConn` and `titleVariables`.

* Go maps `map[string]T` are association lists; writing a key replaces the entry that is
  already there, so a map built by writes holds every key once.
* A Go `interface{}` value is a `Value`.
* Calls to collaborators (counter, upgrader, container client, backend factory, template,
  webtty) are recorded, in program order, in a list of `Event`s; what each collaborator
  answers is a field of the environment the function is run in.
* A Go panic is `Outcome.panicked`; deferred calls still run.
-/

namespace Route

/-! ## Go values and maps -/

/-- A Go `interface{}` value as it occurs in the title variables. -/
inductive Value where
  | str (s : String)
  | addr (a : String)
  | vars (m : List (String × Value))

/-- A Go `map[string]T`. -/
abbrev GoMap (α : Type) := List (String × α)

/-- The read `m[k]` with the comma-ok result. -/
def GoMap.get? {α : Type} : GoMap α → String → Option α
  | [], _ => none
  | (k1, v) :: rest, k => if k = k1 then some v else GoMap.get? rest k

/-- The write `m[k] = v`. -/
def GoMap.set {α : Type} : GoMap α → String → α → GoMap α
  | [], k, v => [(k, v)]
  | (k1, v1) :: rest, k, v =>
      if k = k1 then (k, v) :: rest else (k1, v1) :: GoMap.set rest k v

/-- The keys of a map, in entry order. -/
def GoMap.keys {α : Type} (m : GoMap α) : List String := m.map Prod.fst

/-- A Go map holds each key once. -/
def GoMap.WF {α : Type} (m : GoMap α) : Prop := m.keys.Nodup

/-- The title variables: `map[string]interface{}`. -/
abbrev Vars := GoMap Value

/-- The result of running Go code that may panic. -/
inductive Outcome (α : Type) where
  | returned (a : α)
  | panicked (msg : String)

/-! ## titleVariables -/

/-- The inner loop `for key, val := range vars { titleVars[key] = val }`. -/
def rangeAssign (titleVars : Vars) (vars : Vars) : Vars :=
  vars.foldl (fun acc kv => GoMap.set acc kv.1 kv.2) titleVars

/-- The first loop of `titleVariables`: merge the groups in the given order; a name that is
not a key of `varUnits` panics. -/
def mergeUnits (varUnits : GoMap Vars) : List String → Vars → Outcome Vars
  | [], titleVars => Outcome.returned titleVars
  | name :: rest, titleVars =>
      match GoMap.get? varUnits name with
      | none => Outcome.panicked "title variable name error"
      | some vars => mergeUnits varUnits rest (rangeAssign titleVars vars)

/-- The Go read `varUnits[name]` without comma-ok: a missing key reads the nil map. -/
def unitOf (varUnits : GoMap Vars) (name : String) : Vars :=
  (GoMap.get? varUnits name).getD []

/-- The second loop of `titleVariables`: `titleVars[name] = varUnits[name]`. -/
def safeNet (varUnits : GoMap Vars) (order : List String) (titleVars : Vars) : Vars :=
  order.foldl (fun acc name => GoMap.set acc name (Value.vars (unitOf varUnits name))) titleVars

/-- The method `titleVariables(order, varUnits)`. -/
def titleVariables (order : List String) (varUnits : GoMap Vars) : Outcome Vars :=
  match mergeUnits varUnits order [] with
  | Outcome.panicked msg => Outcome.panicked msg
  | Outcome.returned titleVars => Outcome.returned (safeNet varUnits order titleVars)

/-! ## Errors, collaborators and events -/

/-- A Go `error` value. Two values are the same Go value exactly when they are equal here:
the package-level sentinels are their own constructors, `errorf` is a value made by a
`fmt.Errorf` call of route/handler.go, and `foreign` is any other error, told apart by the
identity `ident` of its allocation. -/
inductive GoError where
  | canceled
  | deadlineExceeded
  | errSlaveClosed
  | errMasterClosed
  | errorf (msg : String)
  | foreign (ident : Nat) (msg : String)
  deriving DecidableEq

/-- The method `Error()`: the message of an error value (`context.Canceled`,
`context.DeadlineExceeded`, `webtty.ErrSlaveClosed`, `webtty.ErrMasterClosed` carry the
messages their libraries give them). -/
def GoError.Error : GoError → String
  | GoError.canceled => "context canceled"
  | GoError.deadlineExceeded => "context deadline exceeded"
  | GoError.errSlaveClosed => "slave closed"
  | GoError.errMasterClosed => "master closed"
  | GoError.errorf msg => msg
  | GoError.foreign _ msg => msg

/-- The constant `websocket.TextMessage`. -/
def TextMessage : Int := 1

/-- The constant `websocket.BinaryMessage`. -/
def BinaryMessage : Int := 2

/-- Modelled from the spec: the type `InitMessage` is declared outside route/handler.go; it
is the structure the first text frame is parsed into and carries the authentication token. -/
structure InitMessage where
  AuthToken : String

/-- The session context: what `ctx.Err()` answers. -/
structure Context where
  err : Option GoError

/-- The request, as far as the handler reads it. -/
structure Request where
  Method : String
  RemoteAddr : String

/-- The backend handle made by the factory. -/
structure Slave where
  windowTitleVariables : Vars

/-- The bridge made by `webtty.New`: what `Run(ctx)` returns. -/
structure Tty where
  run : Context → Option GoError

/-- The upgraded connection: what `ReadMessage()` answers for the first frame (message type
and payload, or an error), what `RemoteAddr()` answers, and what `webtty.New` answers when
it is given this connection, a slave and the rendered title. -/
structure Conn where
  readMessage : Except GoError (Int × List Nat)
  remoteAddr : String
  webttyNew : Slave → String → Except GoError Tty

/-- The backend factory `server.factory`. -/
structure Factory where
  name : String
  new : GoMap (List String) → Except GoError Slave

/-- The fields of `server.options` that the handler reads (and `Credential`, which it does
not). -/
structure Options where
  MaxConnection : Int
  Credential : String
  TitleVariables : Vars

/-- The server with its collaborators: the upgrader, the container client's `BashExist`,
`json.Unmarshal` into an `InitMessage` and `titleTemplate.Execute`. -/
structure Server where
  options : Options
  factory : Factory
  upgrade : Request → Except GoError Conn
  bashExist : String → Bool
  unmarshal : List Nat → Except GoError InitMessage
  titleTemplate : Vars → Except GoError String

/-- A call to a collaborator, or a log line. -/
inductive Event where
  | counterAdd (n : Int)
  | counterDone
  | logNewClient (remoteAddr : String) (num maxConnection : Int)
  | logClosed (closeReason remoteAddr : String) (num maxConnection : Int)
  | httpError (msg : String) (code : Nat)
  | upgrade
  | connClose
  | bashExist (containerID : String)
  | processWSConn (args : List String)
  | readMessage
  | jsonUnmarshal
  | factoryNew (params : GoMap (List String))
  | slaveClose
  | windowTitleVariables
  | templateExecute (titleVars : Vars)
  | webttyNew (title : String)
  | ttyRun

/-- The event is the call `slave.Close()`. -/
def Event.isSlaveClose : Event → Bool
  | Event.slaveClose => true
  | _ => false

/-- The event is the call `counter.add`. -/
def Event.isCounterAdd : Event → Bool
  | Event.counterAdd _ => true
  | _ => false

/-- The event is the call `counter.done`. -/
def Event.isCounterDone : Event → Bool
  | Event.counterDone => true
  | _ => false

/-- The event is a call of `server.factory.New`. -/
def Event.isFactoryNew : Event → Bool
  | Event.factoryNew _ => true
  | _ => false

/-- The event is a log line. -/
def Event.isLog : Event → Bool
  | Event.logNewClient _ _ _ => true
  | Event.logClosed _ _ _ _ => true
  | _ => false

/-! ## processWSConn -/

/-- The body of `processWSConn` after `defer slave.Close()`: title composition, template
rendering, webtty creation and `tty.Run`. -/
def bridge (server : Server) (ctx : Context) (conn : Conn) (args : List String)
    (slave : Slave) : List Event × Outcome (Option GoError) :=
  match GoMap.get? server.options.TitleVariables "hostname" with
  | some (Value.str hostname) =>
    match args with
    | [] => ([], Outcome.panicked "index out of range")
    | arg0 :: _ =>
      match titleVariables ["server", "master", "slave"]
          [("server", [("hostname", Value.str hostname),
                       ("containerName", Value.str arg0),
                       ("containerID", Value.str arg0)]),
           ("master", [("remote_addr", Value.addr conn.remoteAddr)]),
           ("slave", slave.windowTitleVariables)] with
      | Outcome.panicked msg => ([Event.windowTitleVariables], Outcome.panicked msg)
      | Outcome.returned titleVars =>
        match server.titleTemplate titleVars with
        | Except.error _ =>
          ([Event.windowTitleVariables, Event.templateExecute titleVars],
            Outcome.returned (some (GoError.errorf "failed to fill window title template")))
        | Except.ok title =>
          match conn.webttyNew slave title with
          | Except.error _ =>
            ([Event.windowTitleVariables, Event.templateExecute titleVars,
              Event.webttyNew title],
              Outcome.returned (some (GoError.errorf "failed to create webtty")))
          | Except.ok tty =>
            ([Event.windowTitleVariables, Event.templateExecute titleVars,
              Event.webttyNew title, Event.ttyRun],
              Outcome.returned (tty.run ctx))
  | _ => ([], Outcome.panicked "interface conversion: interface is not string")

/-- The method `processWSConn(ctx, conn, args)`: the calls it makes, in order, and what it
returns. -/
def processWSConn (server : Server) (ctx : Context) (conn : Conn) (args : List String) :
    List Event × Outcome (Option GoError) :=
  match conn.readMessage with
  | Except.error _ =>
    ([Event.readMessage],
      Outcome.returned (some (GoError.errorf "failed to authenticate websocket connection")))
  | Except.ok (typ, initLine) =>
    if typ ≠ TextMessage then
      ([Event.readMessage],
        Outcome.returned (some (GoError.errorf
          "failed to authenticate websocket connection: invalid message type")))
    else
      match server.unmarshal initLine with
      | Except.error _ =>
        ([Event.readMessage, Event.jsonUnmarshal],
          Outcome.returned (some (GoError.errorf
            "failed to authenticate websocket connection")))
      | Except.ok _ =>
        match server.factory.new [("arg", args)] with
        | Except.error _ =>
          ([Event.readMessage, Event.jsonUnmarshal, Event.factoryNew [("arg", args)]],
            Outcome.returned (some (GoError.errorf "failed to create backend")))
        | Except.ok slave =>
          ([Event.readMessage, Event.jsonUnmarshal, Event.factoryNew [("arg", args)]]
              ++ (bridge server ctx conn args slave).1 ++ [Event.slaveClose],
            (bridge server ctx conn args slave).2)

/-! ## The handler returned by generateHandleWS -/

/-- Modelled from the spec: the type `counter` is declared outside route/handler.go; its
count is an integer and `add(n)` atomically adds `n` and returns the new count. The result
is the new state of the counter and the returned value. -/
def counter.add (connections : Int) (n : Int) : Int × Int :=
  (connections + n, connections + n)

/-- Modelled from the spec: `done()` atomically takes one off the count and returns the new
count. The result is the new state of the counter and the returned value. -/
def counter.done (connections : Int) : Int × Int :=
  (connections - 1, connections - 1)

/-- The verb `%s` of `fmt.Sprintf` on an `error`. -/
def fmtS : Option GoError → String
  | none => "%!s(<nil>)"
  | some e => e.Error

/-- The `switch err` at the end of the handler. -/
def closeReasonOf (server : Server) (ctx : Context) (err : Option GoError) : String :=
  if err = ctx.err then "cancelation"
  else if err = some GoError.errSlaveClosed then server.factory.name
  else if err = some GoError.errMasterClosed then "client"
  else "an error: " ++ fmtS err

/-- The admission test `MaxConnection != 0 && num > MaxConnection`. -/
def exceedsMax (server : Server) (num : Int) : Bool :=
  decide (server.options.MaxConnection ≠ 0) && decide (num > server.options.MaxConnection)

/-- The shell choice and the argument list `[]string{containerID, sh}`. -/
def shellArgs (server : Server) (containerID : String) : List String :=
  [containerID, if server.bashExist containerID then "bash" else "sh"]

/-- What one run of the handler leaves behind. -/
structure Served where
  trace : List Event
  closeReason : String
  panicked : Bool

/-- The handler from the log line "New client connected" on: method check, upgrade, shell
probe, `processWSConn`, classification, and the deferred `conn.Close()`. -/
def session (server : Server) (ctx : Context) (containerID : String) (r : Request)
    (num : Int) : Served :=
  let hello := Event.logNewClient r.RemoteAddr num server.options.MaxConnection
  if r.Method ≠ "GET" then
    { trace := [hello, Event.httpError "Method not allowed" 405],
      closeReason := "unknown reason", panicked := false }
  else
    match server.upgrade r with
    | Except.error err =>
      { trace := [hello, Event.upgrade], closeReason := err.Error, panicked := false }
    | Except.ok conn =>
      let args := shellArgs server containerID
      let run := processWSConn server ctx conn args
      let calls := [hello, Event.upgrade, Event.bashExist containerID,
        Event.processWSConn args] ++ run.1 ++ [Event.connClose]
      match run.2 with
      | Outcome.panicked _ =>
        { trace := calls, closeReason := "unknown reason", panicked := true }
      | Outcome.returned err =>
        { trace := calls, closeReason := closeReasonOf server ctx err, panicked := false }

/-- The handler between `counter.add(1)` and the deferred function: the admission check,
then the session. -/
def admission (server : Server) (ctx : Context) (containerID : String) (r : Request)
    (num : Int) : Served :=
  if exceedsMax server num then
    { trace := [], closeReason := "exceeding max number of connections", panicked := false }
  else session server ctx containerID r num

/-- One run of the handler returned by `generateHandleWS`. -/
structure Handled where
  connections : Int
  trace : List Event
  closeReason : String
  panicked : Bool

/-- The handler returned by `generateHandleWS(ctx, cancel, counter, containerID)`, run on
the request `r` with the counter at `connections`. -/
def generateHandleWS (server : Server) (ctx : Context) (containerID : String)
    (connections : Int) (r : Request) : Handled :=
  let added := counter.add connections 1
  let served := admission server ctx containerID r added.2
  let finished := counter.done added.1
  { connections := finished.1,
    trace := [Event.counterAdd 1] ++ served.trace ++
      [Event.counterDone,
        Event.logClosed served.closeReason r.RemoteAddr finished.2
          server.options.MaxConnection],
    closeReason := served.closeReason,
    panicked := served.panicked }

/-- The first frame passes the handshake: it is read, it is a text frame, and its payload
parses as an `InitMessage`. -/
def HandshakeOk (server : Server) (conn : Conn) : Prop :=
  ∃ initLine init, conn.readMessage = Except.ok (TextMessage, initLine) ∧
    server.unmarshal initLine = Except.ok init

/-- The server with another configured credential. -/
def Server.withCredential (server : Server) (credential : String) : Server :=
  { server with options := { server.options with Credential := credential } }

/-- The connection with another first frame. -/
def Conn.withFirstFrame (conn : Conn) (typ : Int) (payload : List Nat) : Conn :=
  { conn with readMessage := Except.ok (typ, payload) }

/-! ## A concrete environment -/

/-- A factory whose backends report one title variable. -/
def exampleFactory : Factory :=
  { name := "docker",
    new := fun _ => Except.ok { windowTitleVariables := [("command", Value.str "bash")] } }

/-- A server with the given maximum, credential and probe answer; a payload parses when it
starts with an opening brace. -/
def exampleServer (maxConnection : Int) (credential : String) (bash : Bool) : Server :=
  { options := { MaxConnection := maxConnection, Credential := credential,
                 TitleVariables := [("hostname", Value.str "host")] },
    factory := exampleFactory,
    upgrade := fun r =>
      if r.RemoteAddr = "" then Except.error (GoError.foreign 7 "websocket: bad handshake")
      else Except.ok
        { readMessage := Except.ok (TextMessage, [123, 125]),
          remoteAddr := r.RemoteAddr,
          webttyNew := fun _ _ => Except.ok { run := fun _ => some GoError.errMasterClosed } },
    bashExist := fun _ => bash,
    unmarshal := fun payload =>
      if payload.head? = some 123 then Except.ok { AuthToken := "secret" }
      else Except.error (GoError.foreign 3 "invalid character"),
    titleTemplate := fun _ => Except.ok "title" }

/-- A connection with the given first frame, bridged until the client closes. -/
def exampleConn (typ : Int) (payload : List Nat) : Conn :=
  { readMessage := Except.ok (typ, payload),
    remoteAddr := "10.0.0.7:5000",
    webttyNew := fun _ _ => Except.ok { run := fun _ => some GoError.errMasterClosed } }

/-- A GET request. -/
def exampleRequest : Request := { Method := "GET", RemoteAddr := "10.0.0.7:5000" }

/-! ## Interleaved handler invocations -/

/-- Where one invocation of the handler stands. -/
inductive Phase where
  | reserved
  | rejected
  | admitted
  | finished
  deriving DecidableEq

/-- The invocation has passed the admission check (and has not run its deferred
`counter.done()`, or it would be gone). -/
def Phase.pastAdmission : Phase → Bool
  | Phase.admitted => true
  | Phase.finished => true
  | _ => false

/-- A running invocation: its request, the `num` that `counter.add(1)` returned to it, its
phase and its local `closeReason`. -/
structure Invocation where
  request : Request
  num : Int
  phase : Phase
  closeReason : String

/-- The shared counter and the invocations that have called `counter.add(1)` and not yet
`counter.done()`, oldest first. -/
structure System where
  connections : Int
  running : List Invocation

/-- The atomic steps: a new invocation runs `counter.add(1)`; the invocation at a position
runs its admission check; runs its session; runs its deferred `counter.done()`. -/
inductive Action where
  | add (r : Request)
  | check (i : Nat)
  | body (i : Nat)
  | done (i : Nat)

/-- No invocation yet, the counter at zero. -/
def System.init : System := { connections := 0, running := [] }

/-- The invocation after an admission check that rejects it. -/
def Invocation.reject (inv : Invocation) : Invocation :=
  { request := inv.request, num := inv.num, phase := Phase.rejected,
    closeReason := "exceeding max number of connections" }

/-- The invocation after an admission check that lets it pass. -/
def Invocation.letPass (inv : Invocation) : Invocation :=
  { request := inv.request, num := inv.num, phase := Phase.admitted,
    closeReason := inv.closeReason }

/-- The invocation after its session, with the close reason the session chose. -/
def Invocation.finish (inv : Invocation) (closeReason : String) : Invocation :=
  { request := inv.request, num := inv.num, phase := Phase.finished,
    closeReason := closeReason }

/-- One atomic step; `none` when the action is not enabled. -/
def step (server : Server) (ctx : Context) (containerID : String) (s : System) :
    Action → Option System
  | Action.add r =>
    some { connections := (counter.add s.connections 1).1,
           running := s.running ++
             [{ request := r, num := (counter.add s.connections 1).2,
                phase := Phase.reserved, closeReason := "unknown reason" }] }
  | Action.check i =>
    match s.running[i]? with
    | none => none
    | some inv =>
      if inv.phase = Phase.reserved then
        if exceedsMax server inv.num then
          some { connections := s.connections, running := s.running.set i inv.reject }
        else
          some { connections := s.connections, running := s.running.set i inv.letPass }
      else none
  | Action.body i =>
    match s.running[i]? with
    | none => none
    | some inv =>
      if inv.phase = Phase.admitted then
        some { connections := s.connections,
               running := s.running.set i
                 (inv.finish (session server ctx containerID inv.request inv.num).closeReason) }
      else none
  | Action.done i =>
    match s.running[i]? with
    | none => none
    | some inv =>
      if inv.phase = Phase.rejected ∨ inv.phase = Phase.finished then
        some { connections := (counter.done s.connections).1,
               running := s.running.eraseIdx i }
      else none

/-- A schedule: the steps taken one after the other. -/
def runSchedule (server : Server) (ctx : Context) (containerID : String) :
    System → List Action → Option System
  | s, [] => some s
  | s, a :: rest =>
    match step server ctx containerID s a with
    | none => none
    | some s1 => runSchedule server ctx containerID s1 rest

/-- The number of invocations that have passed the admission check and have not yet run
their deferred `counter.done()`. -/
def System.admittedActive (s : System) : Nat :=
  s.running.countP (fun inv => inv.phase.pastAdmission)

/-- The position `j` of the oldest-first list holds a `num` of at least `off + j + 1`. -/
def Aged : Int → List Invocation → Prop
  | _, [] => True
  | off, inv :: rest => off + 1 ≤ inv.num ∧ Aged (off + 1) rest

/-- The invariant of the interleaved system: the counter holds the number of running
invocations, the invocations are aged, an invocation past the admission check did not
exceed the maximum, and a rejected one did and carries the close reason. -/
def Sound (server : Server) (s : System) : Prop :=
  s.connections = (s.running.length : Int) ∧ Aged 0 s.running ∧
  ∀ inv ∈ s.running,
    (inv.phase.pastAdmission = true → exceedsMax server inv.num = false) ∧
    (inv.phase = Phase.rejected →
      exceedsMax server inv.num = true ∧
      inv.closeReason = "exceeding max number of connections")

/-! ## Lemmas on maps -/

theorem GoMap.get?_set {α : Type} (m : GoMap α) (k : String) (v : α) (k2 : String) :
    GoMap.get? (GoMap.set m k v) k2 = if k2 = k then some v else GoMap.get? m k2 := by
  induction m with
  | nil => simp [GoMap.set, GoMap.get?]
  | cons hd tl ih =>
    obtain ⟨k1, v1⟩ := hd
    by_cases h : k = k1
    · subst h
      by_cases h2 : k2 = k <;> simp [GoMap.set, GoMap.get?, h2]
    · by_cases h2 : k2 = k1
      · subst h2
        have h3 : ¬ k2 = k := fun e => h e.symm
        simp [GoMap.set, GoMap.get?, h, h3]
      · simp [GoMap.set, GoMap.get?, h, h2, ih]

theorem GoMap.get?_eq_none_iff {α : Type} (m : GoMap α) (k : String) :
    GoMap.get? m k = none ↔ k ∉ m.keys := by
  induction m with
  | nil => simp [GoMap.get?, GoMap.keys]
  | cons hd tl ih =>
    obtain ⟨k1, v1⟩ := hd
    by_cases h : k = k1
    · simp [GoMap.get?, GoMap.keys, h]
    · simp only [GoMap.keys] at ih
      simp [GoMap.get?, GoMap.keys, h, ih]

theorem rangeAssign_get?_of_none (vars : Vars) (titleVars : Vars) (k : String)
    (h : GoMap.get? vars k = none) :
    GoMap.get? (rangeAssign titleVars vars) k = GoMap.get? titleVars k := by
  induction vars generalizing titleVars with
  | nil => rfl
  | cons hd tl ih =>
    obtain ⟨k1, v1⟩ := hd
    have hk : ¬ k = k1 := by
      intro e
      simp [GoMap.get?, e] at h
    have htl : GoMap.get? tl k = none := by
      simpa [GoMap.get?, hk] using h
    have step : rangeAssign titleVars ((k1, v1) :: tl)
        = rangeAssign (GoMap.set titleVars k1 v1) tl := rfl
    rw [step, ih _ htl, GoMap.get?_set]
    simp [hk]

theorem rangeAssign_get?_of_some (vars : Vars) (titleVars : Vars) (k : String) (v : Value)
    (hwf : GoMap.WF vars) (h : GoMap.get? vars k = some v) :
    GoMap.get? (rangeAssign titleVars vars) k = some v := by
  induction vars generalizing titleVars with
  | nil => simp [GoMap.get?] at h
  | cons hd tl ih =>
    obtain ⟨k1, v1⟩ := hd
    have step : rangeAssign titleVars ((k1, v1) :: tl)
        = rangeAssign (GoMap.set titleVars k1 v1) tl := rfl
    have hnd : k1 ∉ GoMap.keys tl ∧ GoMap.WF tl := by
      simpa [GoMap.WF, GoMap.keys] using hwf
    by_cases hk : k = k1
    · subst hk
      have hv : v1 = v := by simpa [GoMap.get?] using h
      have hnone : GoMap.get? tl k = none := (GoMap.get?_eq_none_iff tl k).2 hnd.1
      rw [step, rangeAssign_get?_of_none tl _ k hnone, GoMap.get?_set]
      simp [hv]
    · have htl : GoMap.get? tl k = some v := by
        simpa [GoMap.get?, hk] using h
      rw [step]
      exact ih _ hnd.2 htl

theorem rangeAssign_isSome (vars : Vars) (titleVars : Vars) (k : String)
    (h : (GoMap.get? (rangeAssign titleVars vars) k).isSome = true) :
    (GoMap.get? titleVars k).isSome = true ∨ (GoMap.get? vars k).isSome = true := by
  induction vars generalizing titleVars with
  | nil => exact Or.inl h
  | cons hd tl ih =>
    obtain ⟨k1, v1⟩ := hd
    have step : rangeAssign titleVars ((k1, v1) :: tl)
        = rangeAssign (GoMap.set titleVars k1 v1) tl := rfl
    rw [step] at h
    by_cases hk : k = k1
    · exact Or.inr (by simp [GoMap.get?, hk])
    · rcases ih _ h with h1 | h1
      · rw [GoMap.get?_set] at h1
        simp only [hk, if_false] at h1
        exact Or.inl h1
      · exact Or.inr (by simpa [GoMap.get?, hk] using h1)

theorem mergeUnits_append (varUnits : GoMap Vars) (a b : List String) (titleVars : Vars) :
    mergeUnits varUnits (a ++ b) titleVars =
      match mergeUnits varUnits a titleVars with
      | Outcome.returned t => mergeUnits varUnits b t
      | Outcome.panicked msg => Outcome.panicked msg := by
  induction a generalizing titleVars with
  | nil => rfl
  | cons n rest ih =>
    cases hg : GoMap.get? varUnits n with
    | none => simp [mergeUnits, hg]
    | some g => simp [mergeUnits, hg, ih]

theorem mergeUnits_returns (varUnits : GoMap Vars) (order : List String) (titleVars : Vars)
    (hkeys : ∀ m ∈ order, (GoMap.get? varUnits m).isSome = true) :
    ∃ t, mergeUnits varUnits order titleVars = Outcome.returned t := by
  induction order generalizing titleVars with
  | nil => exact ⟨titleVars, rfl⟩
  | cons n rest ih =>
    have hn := hkeys n (List.mem_cons_self n rest)
    cases hg : GoMap.get? varUnits n with
    | none => simp [hg] at hn
    | some g =>
      obtain ⟨t, ht⟩ := ih (rangeAssign titleVars g)
        (fun m hm => hkeys m (List.mem_cons_of_mem n hm))
      exact ⟨t, by simp [mergeUnits, hg, ht]⟩

theorem mergeUnits_get?_of_absent (varUnits : GoMap Vars) (post : List String)
    (titleVars t : Vars) (k : String)
    (habs : ∀ m ∈ post, ∀ g, GoMap.get? varUnits m = some g → GoMap.get? g k = none)
    (h : mergeUnits varUnits post titleVars = Outcome.returned t) :
    GoMap.get? t k = GoMap.get? titleVars k := by
  induction post generalizing titleVars with
  | nil =>
    simp only [mergeUnits, Outcome.returned.injEq] at h
    rw [← h]
  | cons n rest ih =>
    cases hg : GoMap.get? varUnits n with
    | none => simp [mergeUnits, hg] at h
    | some g =>
      simp only [mergeUnits, hg] at h
      rw [ih _ (fun m hm => habs m (List.mem_cons_of_mem n hm)) h]
      exact rangeAssign_get?_of_none g titleVars k (habs n (List.mem_cons_self n rest) g hg)

theorem mergeUnits_isSome (varUnits : GoMap Vars) (order : List String)
    (titleVars t : Vars) (k : String)
    (h : mergeUnits varUnits order titleVars = Outcome.returned t)
    (hk : (GoMap.get? t k).isSome = true) :
    (GoMap.get? titleVars k).isSome = true ∨
      ∃ n ∈ order, ∃ g, GoMap.get? varUnits n = some g ∧ (GoMap.get? g k).isSome = true := by
  induction order generalizing titleVars with
  | nil =>
    simp only [mergeUnits, Outcome.returned.injEq] at h
    rw [← h] at hk
    exact Or.inl hk
  | cons n rest ih =>
    cases hg : GoMap.get? varUnits n with
    | none => simp [mergeUnits, hg] at h
    | some g =>
      simp only [mergeUnits, hg] at h
      rcases ih _ h with h1 | ⟨m, hm, g2, hg2, hk2⟩
      · rcases rangeAssign_isSome g titleVars k h1 with h2 | h2
        · exact Or.inl h2
        · exact Or.inr ⟨n, List.mem_cons_self n rest, g, hg, h2⟩
      · exact Or.inr ⟨m, List.mem_cons_of_mem n hm, g2, hg2, hk2⟩

theorem safeNet_get? (varUnits : GoMap Vars) (order : List String) (titleVars : Vars)
    (k : String) :
    GoMap.get? (safeNet varUnits order titleVars) k =
      if k ∈ order then some (Value.vars (unitOf varUnits k)) else GoMap.get? titleVars k := by
  induction order generalizing titleVars with
  | nil => simp [safeNet]
  | cons n rest ih =>
    have step : safeNet varUnits (n :: rest) titleVars
        = safeNet varUnits rest (GoMap.set titleVars n (Value.vars (unitOf varUnits n))) := rfl
    rw [step, ih, GoMap.get?_set]
    by_cases h1 : k ∈ rest
    · simp [h1]
    · by_cases h2 : k = n
      · simp [h2]
      · simp [h1, h2]

/-! ## titleVariables: precedence of the groups -/

/-- C7 (as amended): when every name in `order` is a key of `varUnits`, a key `k` that is
not itself one of the names in `order` is mapped by `titleVariables order varUnits` to the
value it has in the last group, in the sequence `order`, that contains it: if
`order = pre ++ n :: post`, the group of `n` holds `k ↦ v` and no group named in `post`
holds `k`, the result holds `k ↦ v`. (The group of `n` is a Go map: it holds each key
once.) -/
theorem titleVariables_last_group_wins (order : List String) (varUnits : GoMap Vars)
    (pre post : List String) (n : String) (g : Vars) (k : String) (v : Value)
    (hkeys : ∀ m ∈ order, (GoMap.get? varUnits m).isSome = true)
    (hsplit : order = pre ++ n :: post)
    (hg : GoMap.get? varUnits n = some g) (hwf : GoMap.WF g)
    (hv : GoMap.get? g k = some v)
    (hlast : ∀ m ∈ post, ∀ g2, GoMap.get? varUnits m = some g2 → GoMap.get? g2 k = none)
    (hk : k ∉ order) :
    ∃ titleVars, titleVariables order varUnits = Outcome.returned titleVars ∧
      GoMap.get? titleVars k = some v := by
  obtain ⟨t, ht⟩ := mergeUnits_returns varUnits order [] hkeys
  refine ⟨safeNet varUnits order t, by simp [titleVariables, ht], ?_⟩
  rw [safeNet_get?, if_neg hk]
  subst hsplit
  rw [mergeUnits_append] at ht
  obtain ⟨t1, ht1⟩ := mergeUnits_returns varUnits pre []
    (fun m hm => hkeys m (List.mem_append_left _ hm))
  rw [ht1] at ht
  simp only [mergeUnits, hg] at ht
  rw [mergeUnits_get?_of_absent varUnits post _ t k hlast ht]
  exact rangeAssign_get?_of_some g t1 k v hwf hv

/-- C7, witness: with `order = [server, master, slave]`, the key `hostname`, held by both
the server group and the slave group, gets the slave group's value. -/
theorem titleVariables_last_group_wins_witness :
    ∃ titleVars,
      titleVariables ["server", "master", "slave"]
        [("server", [("hostname", Value.str "host"), ("containerID", Value.str "c1")]),
         ("master", [("remote_addr", Value.addr "10.0.0.7:5000")]),
         ("slave", [("hostname", Value.str "inner"), ("command", Value.str "bash")])]
        = Outcome.returned titleVars ∧
      GoMap.get? titleVars "hostname" = some (Value.str "inner") :=
  titleVariables_last_group_wins ["server", "master", "slave"]
    [("server", [("hostname", Value.str "host"), ("containerID", Value.str "c1")]),
     ("master", [("remote_addr", Value.addr "10.0.0.7:5000")]),
     ("slave", [("hostname", Value.str "inner"), ("command", Value.str "bash")])]
    ["server", "master"] [] "slave"
    [("hostname", Value.str "inner"), ("command", Value.str "bash")]
    "hostname" (Value.str "inner")
    (by decide) rfl (by simp [GoMap.get?]) (by simp [GoMap.WF, GoMap.keys])
    (by simp [GoMap.get?]) (by simp) (by decide)

/-- C7, counterexample: every name in `order = [server, master, slave]` is a key of
`varUnits`, the key `master` occurs in the slave group with the value `"x"` and the slave
group is the last group that contains it, yet the result maps `master` to the whole master
group, not to `"x"`. -/
theorem titleVariables_group_name_key_counterexample :
    (∀ m ∈ ["server", "master", "slave"],
      (GoMap.get? ([("server", [("hostname", Value.str "host")]),
         ("master", [("remote_addr", Value.addr "10.0.0.7:5000")]),
         ("slave", [("master", Value.str "x")])] : GoMap Vars) m).isSome = true) ∧
    GoMap.get? ([("server", [("hostname", Value.str "host")]),
         ("master", [("remote_addr", Value.addr "10.0.0.7:5000")]),
         ("slave", [("master", Value.str "x")])] : GoMap Vars) "slave"
      = some [("master", Value.str "x")] ∧
    GoMap.get? ([("master", Value.str "x")] : Vars) "master" = some (Value.str "x") ∧
    titleVariables ["server", "master", "slave"]
        [("server", [("hostname", Value.str "host")]),
         ("master", [("remote_addr", Value.addr "10.0.0.7:5000")]),
         ("slave", [("master", Value.str "x")])]
      = Outcome.returned
          [("hostname", Value.str "host"),
           ("remote_addr", Value.addr "10.0.0.7:5000"),
           ("master", Value.vars [("remote_addr", Value.addr "10.0.0.7:5000")]),
           ("server", Value.vars [("hostname", Value.str "host")]),
           ("slave", Value.vars [("master", Value.str "x")])] ∧
    GoMap.get? ([("hostname", Value.str "host"),
           ("remote_addr", Value.addr "10.0.0.7:5000"),
           ("master", Value.vars [("remote_addr", Value.addr "10.0.0.7:5000")]),
           ("server", Value.vars [("hostname", Value.str "host")]),
           ("slave", Value.vars [("master", Value.str "x")])] : Vars) "master"
      ≠ some (Value.str "x") := by
  refine ⟨by decide, by simp [GoMap.get?], by simp [GoMap.get?], ?_, by simp [GoMap.get?]⟩
  simp [titleVariables, mergeUnits, rangeAssign, safeNet, unitOf, GoMap.get?, GoMap.set]

/-- C8: when every name in `order` is a key of `varUnits`, `titleVariables order varUnits`
returns a map that holds, under every name `n` of `order`, the whole group `varUnits[n]`
(also when some group has an entry with the key `n`), and whose keys are all either names
of `order` or keys of a group named in `order`. -/
theorem titleVariables_group_names (order : List String) (varUnits : GoMap Vars)
    (hkeys : ∀ m ∈ order, (GoMap.get? varUnits m).isSome = true) :
    ∃ titleVars, titleVariables order varUnits = Outcome.returned titleVars ∧
      (∀ n ∈ order, ∀ g, GoMap.get? varUnits n = some g →
        GoMap.get? titleVars n = some (Value.vars g)) ∧
      (∀ k, (GoMap.get? titleVars k).isSome = true →
        k ∈ order ∨
        ∃ n ∈ order, ∃ g, GoMap.get? varUnits n = some g ∧
          (GoMap.get? g k).isSome = true) := by
  obtain ⟨t, ht⟩ := mergeUnits_returns varUnits order [] hkeys
  refine ⟨safeNet varUnits order t, by simp [titleVariables, ht], ?_, ?_⟩
  · intro n hn g hg
    rw [safeNet_get?, if_pos hn]
    simp [unitOf, hg]
  · intro k hk
    by_cases hko : k ∈ order
    · exact Or.inl hko
    · rw [safeNet_get?, if_neg hko] at hk
      rcases mergeUnits_isSome varUnits order [] t k ht hk with h1 | h1
      · simp [GoMap.get?] at h1
      · exact Or.inr h1

/-! ## processWSConn -/

theorem bridge_events (server : Server) (ctx : Context) (conn : Conn) (args : List String)
    (slave : Slave) :
    ∀ e ∈ (bridge server ctx conn args slave).1,
      e = Event.windowTitleVariables ∨ (∃ titleVars, e = Event.templateExecute titleVars) ∨
        (∃ title, e = Event.webttyNew title) ∨ e = Event.ttyRun := by
  intro e he
  unfold bridge at he
  split at he
  · split at he
    · simp at he
    · split at he
      · simp at he
        exact Or.inl he
      · split at he
        · simp at he
          rcases he with he | he
          · exact Or.inl he
          · exact Or.inr (Or.inl ⟨_, he⟩)
        · split at he
          · simp at he
            rcases he with he | he | he
            · exact Or.inl he
            · exact Or.inr (Or.inl ⟨_, he⟩)
            · exact Or.inr (Or.inr (Or.inl ⟨_, he⟩))
          · simp at he
            rcases he with he | he | he | he
            · exact Or.inl he
            · exact Or.inr (Or.inl ⟨_, he⟩)
            · exact Or.inr (Or.inr (Or.inl ⟨_, he⟩))
            · exact Or.inr (Or.inr (Or.inr he))
  · simp at he

theorem bridge_events_plain (server : Server) (ctx : Context) (conn : Conn)
    (args : List String) (slave : Slave) :
    ∀ e ∈ (bridge server ctx conn args slave).1,
      e.isSlaveClose = false ∧ e.isFactoryNew = false := by
  intro e he
  rcases bridge_events server ctx conn args slave e he with h | ⟨_, h⟩ | ⟨_, h⟩ | h <;>
    subst h <;> exact ⟨rfl, rfl⟩

theorem processWSConn_events (server : Server) (ctx : Context) (conn : Conn)
    (args : List String) :
    ∀ e ∈ (processWSConn server ctx conn args).1,
      e = Event.readMessage ∨ e = Event.jsonUnmarshal ∨
        e = Event.factoryNew [("arg", args)] ∨ e = Event.slaveClose ∨
        e = Event.windowTitleVariables ∨ (∃ titleVars, e = Event.templateExecute titleVars) ∨
        (∃ title, e = Event.webttyNew title) ∨ e = Event.ttyRun := by
  intro e he
  unfold processWSConn at he
  split at he
  · simp at he
    exact Or.inl he
  · split at he
    · simp at he
      exact Or.inl he
    · split at he
      · simp at he
        rcases he with he | he
        · exact Or.inl he
        · exact Or.inr (Or.inl he)
      · split at he
        · simp at he
          rcases he with he | he | he
          · exact Or.inl he
          · exact Or.inr (Or.inl he)
          · exact Or.inr (Or.inr (Or.inl he))
        · rename_i slave _
          simp only [List.mem_append, List.mem_cons, List.mem_singleton, List.not_mem_nil,
            or_false] at he
          rcases he with ((he | he | he) | he) | he
          · exact Or.inl he
          · exact Or.inr (Or.inl he)
          · exact Or.inr (Or.inr (Or.inl he))
          · exact Or.inr (Or.inr (Or.inr (Or.inr
              (bridge_events server ctx conn args slave e he))))
          · exact Or.inr (Or.inr (Or.inr (Or.inl he)))

/-- C5: when reading the first message fails, or the first message is not a text frame, or
its payload does not parse as an `InitMessage`, `processWSConn` returns a non-nil error
whose message begins with "failed to authenticate websocket connection", and it never calls
`server.factory.New`. -/
theorem processWSConn_authentication_failure (server : Server) (ctx : Context) (conn : Conn)
    (args : List String)
    (h : (∃ e, conn.readMessage = Except.error e) ∨
         ∃ typ initLine, conn.readMessage = Except.ok (typ, initLine) ∧
           (typ ≠ TextMessage ∨ ∃ e, server.unmarshal initLine = Except.error e)) :
    (∃ err rest, (processWSConn server ctx conn args).2 = Outcome.returned (some err) ∧
        err.Error = "failed to authenticate websocket connection" ++ rest) ∧
      ∀ e ∈ (processWSConn server ctx conn args).1, e.isFactoryNew = false := by
  rcases h with ⟨e, he⟩ | ⟨typ, initLine, hr, htyp | ⟨e, he⟩⟩
  · refine ⟨⟨GoError.errorf "failed to authenticate websocket connection", "", ?_,
      by decide⟩, ?_⟩
    · simp [processWSConn, he]
    · simp [processWSConn, he, Event.isFactoryNew]
  · refine ⟨⟨GoError.errorf
      "failed to authenticate websocket connection: invalid message type",
      ": invalid message type", ?_, by decide⟩, ?_⟩
    · simp [processWSConn, hr, htyp]
    · simp [processWSConn, hr, htyp, Event.isFactoryNew]
  · by_cases htyp : typ = TextMessage
    · refine ⟨⟨GoError.errorf "failed to authenticate websocket connection", "", ?_,
      by decide⟩, ?_⟩
      · simp [processWSConn, hr, htyp, he]
      · simp [processWSConn, hr, htyp, he, Event.isFactoryNew]
    · refine ⟨⟨GoError.errorf
      "failed to authenticate websocket connection: invalid message type",
      ": invalid message type", ?_, by decide⟩, ?_⟩
      · simp [processWSConn, hr, htyp]
      · simp [processWSConn, hr, htyp, Event.isFactoryNew]

/-- C5, witness: a binary first frame. -/
theorem processWSConn_authentication_failure_witness :
    (∃ err rest,
        (processWSConn (exampleServer 0 "secret" true) { err := none }
          (exampleConn BinaryMessage [123, 125]) ["c1", "bash"]).2
          = Outcome.returned (some err) ∧
        err.Error = "failed to authenticate websocket connection" ++ rest) ∧
      ∀ e ∈ (processWSConn (exampleServer 0 "secret" true) { err := none }
          (exampleConn BinaryMessage [123, 125]) ["c1", "bash"]).1,
        e.isFactoryNew = false :=
  processWSConn_authentication_failure (exampleServer 0 "secret" true) { err := none }
    (exampleConn BinaryMessage [123, 125]) ["c1", "bash"]
    (Or.inr ⟨BinaryMessage, [123, 125], rfl, Or.inl (by decide)⟩)

/-- C6: when `server.factory.New` succeeds, `slave.Close()` is the last call of
`processWSConn` and is called once, whatever happens in between (a panic included); when
the handshake fails or `server.factory.New` fails, `slave.Close()` is never called. -/
theorem processWSConn_slave_closed_once (server : Server) (ctx : Context) (conn : Conn)
    (args : List String) :
    (HandshakeOk server conn →
      ∀ slave, server.factory.new [("arg", args)] = Except.ok slave →
        (∃ before, (processWSConn server ctx conn args).1 = before ++ [Event.slaveClose] ∧
          ∀ e ∈ before, e.isSlaveClose = false) ∧
        (processWSConn server ctx conn args).1.countP Event.isSlaveClose = 1) ∧
    (¬ HandshakeOk server conn ∨ (∃ e, server.factory.new [("arg", args)] = Except.error e) →
      (processWSConn server ctx conn args).1.countP Event.isSlaveClose = 0) := by
  constructor
  · rintro ⟨initLine, init, hr, hu⟩ slave hs
    have hb := bridge_events_plain server ctx conn args slave
    have htrace : (processWSConn server ctx conn args).1 =
        ([Event.readMessage, Event.jsonUnmarshal, Event.factoryNew [("arg", args)]]
          ++ (bridge server ctx conn args slave).1) ++ [Event.slaveClose] := by
      simp [processWSConn, hr, hu, hs]
    have hbefore : ∀ e ∈ [Event.readMessage, Event.jsonUnmarshal,
        Event.factoryNew [("arg", args)]] ++ (bridge server ctx conn args slave).1,
        e.isSlaveClose = false := by
      intro e he
      rcases List.mem_append.1 he with h1 | h1
      · simp at h1
        rcases h1 with h1 | h1 | h1 <;> subst h1 <;> rfl
      · exact (hb e h1).1
    refine ⟨⟨_, htrace, hbefore⟩, ?_⟩
    rw [htrace, List.countP_append]
    have h0 : List.countP Event.isSlaveClose
        ([Event.readMessage, Event.jsonUnmarshal, Event.factoryNew [("arg", args)]]
          ++ (bridge server ctx conn args slave).1) = 0 := by
      rw [List.countP_eq_zero]
      intro e he
      simp [hbefore e he]
    rw [h0]
    rfl
  · intro h
    rw [List.countP_eq_zero]
    intro e he
    have hne : e.isSlaveClose = false := by
      unfold processWSConn at he
      split at he
      · simp at he
        subst he
        rfl
      · rename_i typ initLine hr
        split at he
        · simp at he
          subst he
          rfl
        · rename_i htyp
          split at he
          · simp at he
            rcases he with he | he <;> subst he <;> rfl
          · rename_i init hu
            split at he
            · simp at he
              rcases he with he | he | he <;> subst he <;> rfl
            · rename_i slave hs
              exfalso
              rcases h with h | ⟨e2, h⟩
              · apply h
                have ht : typ = TextMessage := by simpa using htyp
                exact ⟨initLine, init, by rw [hr, ht], hu⟩
              · rw [hs] at h
                cases h
    simp [hne]

/-- C9: two runs of `processWSConn` that differ only in the payload of the text frame (and
so in the token of the parsed `InitMessage`) and in the configured credential make the same
calls and return the same result; and a parsed token that differs from the credential still
leads to the call of `server.factory.New`. -/
theorem processWSConn_token_independent (server : Server) (ctx : Context) (conn : Conn)
    (args : List String) (typ : Int) (payload1 payload2 : List Nat)
    (init1 init2 : InitMessage) (credential1 credential2 : String)
    (h1 : server.unmarshal payload1 = Except.ok init1)
    (h2 : server.unmarshal payload2 = Except.ok init2) :
    processWSConn (server.withCredential credential1) ctx (conn.withFirstFrame typ payload1)
        args
      = processWSConn (server.withCredential credential2) ctx
          (conn.withFirstFrame typ payload2) args ∧
    (typ = TextMessage → init1.AuthToken ≠ credential1 →
      Event.factoryNew [("arg", args)] ∈
        (processWSConn (server.withCredential credential1) ctx
          (conn.withFirstFrame typ payload1) args).1) := by
  constructor
  · by_cases htyp : typ = TextMessage
    · simp only [processWSConn, Conn.withFirstFrame, Server.withCredential, htyp, h1, h2,
        bridge]
    · simp [processWSConn, Conn.withFirstFrame, htyp]
  · intro htyp _
    subst htyp
    cases hf : server.factory.new [("arg", args)] <;>
      simp [processWSConn, Conn.withFirstFrame, Server.withCredential, h1, hf]

/-- C6, witness: a text frame that parses and a factory that delivers a slave. -/
theorem processWSConn_slave_closed_once_witness :
    (processWSConn (exampleServer 0 "secret" true) { err := none }
      (exampleConn TextMessage [123, 125]) ["c1", "bash"]).1.countP Event.isSlaveClose = 1 :=
  ((processWSConn_slave_closed_once (exampleServer 0 "secret" true) { err := none }
      (exampleConn TextMessage [123, 125]) ["c1", "bash"]).1
    ⟨[123, 125], { AuthToken := "secret" }, rfl, rfl⟩
    { windowTitleVariables := [("command", Value.str "bash")] } rfl).2

/-- C9, witness: two payloads that parse, under two credentials. -/
theorem processWSConn_token_independent_witness :
    processWSConn ((exampleServer 0 "secret" true).withCredential "secret")
        { err := none } ((exampleConn TextMessage []).withFirstFrame TextMessage [123, 125])
        ["c1", "bash"]
      = processWSConn ((exampleServer 0 "secret" true).withCredential "other")
        { err := none } ((exampleConn TextMessage []).withFirstFrame TextMessage [123, 34, 125])
        ["c1", "bash"] :=
  (processWSConn_token_independent (exampleServer 0 "secret" true) { err := none }
    (exampleConn TextMessage []) ["c1", "bash"] TextMessage [123, 125] [123, 34, 125]
    { AuthToken := "secret" } { AuthToken := "secret" } "secret" "other" rfl rfl).1

/-- C8, witness: the slave group has an entry under the key `master`; the result still
holds the whole master group under `master`. -/
theorem titleVariables_group_names_witness :
    ∃ titleVars,
      titleVariables ["server", "master", "slave"]
        [("server", [("hostname", Value.str "host")]),
         ("master", [("remote_addr", Value.addr "10.0.0.7:5000")]),
         ("slave", [("master", Value.str "x")])]
        = Outcome.returned titleVars ∧
      GoMap.get? titleVars "master"
        = some (Value.vars [("remote_addr", Value.addr "10.0.0.7:5000")]) := by
  obtain ⟨titleVars, h, hn, _⟩ := titleVariables_group_names ["server", "master", "slave"]
    [("server", [("hostname", Value.str "host")]),
     ("master", [("remote_addr", Value.addr "10.0.0.7:5000")]),
     ("slave", [("master", Value.str "x")])] (by decide)
  exact ⟨titleVars, h, hn "master" (by decide) _ (by simp [GoMap.get?])⟩

/-! ## The handler -/

theorem session_passes (server : Server) (ctx : Context) (containerID : String)
    (r : Request) (num : Int) :
    Event.httpError "Method not allowed" 405 ∈ (session server ctx containerID r num).trace ∨
      Event.upgrade ∈ (session server ctx containerID r num).trace := by
  unfold session
  by_cases hm : r.Method = "GET"
  · right
    cases hu : server.upgrade r with
    | error err => simp [hm]
    | ok conn =>
      simp only [hm, ne_eq, not_true_eq_false, if_false]
      split <;> simp
  · left
    simp [hm]

theorem session_trace_upgraded (server : Server) (ctx : Context) (containerID : String)
    (r : Request) (num : Int) (conn : Conn)
    (hget : r.Method = "GET") (hup : server.upgrade r = Except.ok conn) :
    (session server ctx containerID r num).trace =
      [Event.logNewClient r.RemoteAddr num server.options.MaxConnection, Event.upgrade,
        Event.bashExist containerID, Event.processWSConn (shellArgs server containerID)]
      ++ (processWSConn server ctx conn (shellArgs server containerID)).1
      ++ [Event.connClose] := by
  unfold session
  simp only [hget, ne_eq, not_true_eq_false, if_false, hup]
  split <;> rfl

theorem session_events (server : Server) (ctx : Context) (containerID : String)
    (r : Request) (num : Int) :
    ∀ e ∈ (session server ctx containerID r num).trace,
      e.isCounterAdd = false ∧ e.isCounterDone = false := by
  intro e he
  by_cases hm : r.Method = "GET"
  · cases hu : server.upgrade r with
    | error err =>
      simp [session, hm, hu] at he
      rcases he with he | he <;> subst he <;> exact ⟨rfl, rfl⟩
    | ok conn =>
      rw [session_trace_upgraded server ctx containerID r num conn hm hu] at he
      simp only [List.mem_append, List.mem_cons, List.mem_singleton, List.not_mem_nil,
        or_false] at he
      rcases he with ((he | he | he | he) | he) | he
      · subst he; exact ⟨rfl, rfl⟩
      · subst he; exact ⟨rfl, rfl⟩
      · subst he; exact ⟨rfl, rfl⟩
      · subst he; exact ⟨rfl, rfl⟩
      · rcases processWSConn_events server ctx conn _ e he with
          h | h | h | h | h | ⟨_, h⟩ | ⟨_, h⟩ | h <;> subst h <;> exact ⟨rfl, rfl⟩
      · subst he; exact ⟨rfl, rfl⟩
  · simp [session, hm] at he
    rcases he with he | he <;> subst he <;> exact ⟨rfl, rfl⟩

theorem exceedsMax_iff (server : Server) (num : Int) :
    exceedsMax server num = true ↔
      server.options.MaxConnection ≠ 0 ∧ num > server.options.MaxConnection := by
  simp [exceedsMax]

/-- C1: with `num` the value returned by `counter.add(1)`, the handler stops at the
admission step (no 405 written, no call of the upgrader, of the shell probe or of
`processWSConn`) exactly when `MaxConnection ≠ 0` and `num > MaxConnection`; the close
reason is then "exceeding max number of connections" and the handler does nothing but
reserve and release its slot; with `MaxConnection = 0` the handler never stops there. -/
theorem generateHandleWS_admission (server : Server) (ctx : Context) (containerID : String)
    (connections : Int) (r : Request) :
    ((((∀ msg code, Event.httpError msg code ∉
            (generateHandleWS server ctx containerID connections r).trace) ∧
        Event.upgrade ∉ (generateHandleWS server ctx containerID connections r).trace ∧
        (∀ c, Event.bashExist c ∉
            (generateHandleWS server ctx containerID connections r).trace) ∧
        (∀ args, Event.processWSConn args ∉
            (generateHandleWS server ctx containerID connections r).trace)) ↔
      (server.options.MaxConnection ≠ 0 ∧
        (counter.add connections 1).2 > server.options.MaxConnection)) ∧
    ((server.options.MaxConnection ≠ 0 ∧
        (counter.add connections 1).2 > server.options.MaxConnection) →
      (generateHandleWS server ctx containerID connections r).closeReason
        = "exceeding max number of connections" ∧
      (generateHandleWS server ctx containerID connections r).trace
        = [Event.counterAdd 1, Event.counterDone,
            Event.logClosed "exceeding max number of connections" r.RemoteAddr
              (counter.done (counter.add connections 1).1).2
              server.options.MaxConnection]) ∧
    (server.options.MaxConnection = 0 →
      (Event.httpError "Method not allowed" 405 ∈
          (generateHandleWS server ctx containerID connections r).trace ∨
        Event.upgrade ∈ (generateHandleWS server ctx containerID connections r).trace))) := by
  have hrej : exceedsMax server (counter.add connections 1).2 = true →
      (generateHandleWS server ctx containerID connections r).closeReason
        = "exceeding max number of connections" ∧
      (generateHandleWS server ctx containerID connections r).trace
        = [Event.counterAdd 1, Event.counterDone,
            Event.logClosed "exceeding max number of connections" r.RemoteAddr
              (counter.done (counter.add connections 1).1).2
              server.options.MaxConnection] := by
    intro h
    simp [generateHandleWS, admission, h]
  have hpass : exceedsMax server (counter.add connections 1).2 = false →
      (Event.httpError "Method not allowed" 405 ∈
          (generateHandleWS server ctx containerID connections r).trace ∨
        Event.upgrade ∈ (generateHandleWS server ctx containerID connections r).trace) := by
    intro h
    rcases session_passes server ctx containerID r (counter.add connections 1).2 with h1 | h1
    · left
      simp [generateHandleWS, admission, h, h1]
    · right
      simp [generateHandleWS, admission, h, h1]
  refine ⟨⟨?_, ?_⟩, ?_, ?_⟩
  · rintro ⟨h405, hup, _, _⟩
    rw [← exceedsMax_iff]
    by_contra hne
    have hf : exceedsMax server (counter.add connections 1).2 = false := by
      simpa using hne
    rcases hpass hf with h1 | h1
    · exact h405 _ _ h1
    · exact hup h1
  · intro h
    have ht := (hrej ((exceedsMax_iff server _).2 h)).2
    rw [ht]
    simp
  · intro h
    exact hrej ((exceedsMax_iff server _).2 h)
  · intro h0
    apply hpass
    simp [exceedsMax, h0]

/-- C1, witness: maximum 1 and the counter already at 1. -/
theorem generateHandleWS_admission_witness :
    (generateHandleWS (exampleServer 1 "secret" true) { err := none } "c1" 1
        exampleRequest).closeReason = "exceeding max number of connections" :=
  ((generateHandleWS_admission (exampleServer 1 "secret" true) { err := none } "c1" 1
    exampleRequest).2.1 (by decide)).1

/-- C3 (as amended): every run of the handler calls `counter.add(1)` first and once, and
`counter.done()` once, in the deferred function that runs after everything else on every
exit path; the one thing that follows `counter.done()` is the closing log line of that
deferred function, which reports the value `done()` returned. The counter is left at the
value it had before the run. -/
theorem generateHandleWS_counter_balanced (server : Server) (ctx : Context)
    (containerID : String) (connections : Int) (r : Request) :
    (∃ between,
      (generateHandleWS server ctx containerID connections r).trace =
        Event.counterAdd 1 :: (between ++
          [Event.counterDone,
            Event.logClosed (generateHandleWS server ctx containerID connections r).closeReason
              r.RemoteAddr connections server.options.MaxConnection]) ∧
      ∀ e ∈ between, e.isCounterAdd = false ∧ e.isCounterDone = false) ∧
    (generateHandleWS server ctx containerID connections r).trace.countP Event.isCounterAdd
      = 1 ∧
    (generateHandleWS server ctx containerID connections r).trace.countP Event.isCounterDone
      = 1 ∧
    (generateHandleWS server ctx containerID connections r).connections = connections := by
  have hev : ∀ e ∈ (admission server ctx containerID r (counter.add connections 1).2).trace,
      e.isCounterAdd = false ∧ e.isCounterDone = false := by
    intro e he
    unfold admission at he
    split at he
    · simp at he
    · exact session_events server ctx containerID r _ e he
  have htrace : (generateHandleWS server ctx containerID connections r).trace =
      Event.counterAdd 1 ::
        ((admission server ctx containerID r (counter.add connections 1).2).trace ++
          [Event.counterDone,
            Event.logClosed (generateHandleWS server ctx containerID connections r).closeReason
              r.RemoteAddr connections server.options.MaxConnection]) := by
    simp [generateHandleWS, counter.add, counter.done]
  have hadd : List.countP Event.isCounterAdd
      (admission server ctx containerID r (counter.add connections 1).2).trace = 0 := by
    rw [List.countP_eq_zero]
    intro e he
    simp [(hev e he).1]
  have hdone : List.countP Event.isCounterDone
      (admission server ctx containerID r (counter.add connections 1).2).trace = 0 := by
    rw [List.countP_eq_zero]
    intro e he
    simp [(hev e he).2]
  refine ⟨⟨_, htrace, hev⟩, ?_, ?_, ?_⟩
  · rw [htrace, List.countP_cons, List.countP_append, hadd]
    simp [Event.isCounterAdd, List.countP_cons]
  · rw [htrace, List.countP_cons, List.countP_append, hdone]
    simp [Event.isCounterDone, List.countP_cons]
  · simp [generateHandleWS, counter.add, counter.done]

/-- C3, counterexample: on a rejected request (maximum 1, counter at 1) the last action of
the handler is the log line "Connection closed by ...", not `counter.done()`. -/
theorem generateHandleWS_last_action_counterexample :
    (generateHandleWS (exampleServer 1 "secret" true) { err := none } "c1" 1
        exampleRequest).trace.getLast?
      = some (Event.logClosed "exceeding max number of connections" "10.0.0.7:5000" 1 1) ∧
    (generateHandleWS (exampleServer 1 "secret" true) { err := none } "c1" 1
        exampleRequest).trace.getLast? ≠ some Event.counterDone := by
  have h : (generateHandleWS (exampleServer 1 "secret" true) { err := none } "c1" 1
        exampleRequest).trace.getLast?
      = some (Event.logClosed "exceeding max number of connections" "10.0.0.7:5000" 1 1) := by
    simp [generateHandleWS, admission, exceedsMax, exampleServer, exampleRequest,
      counter.add, counter.done]
  exact ⟨h, by rw [h]; simp⟩

theorem generateHandleWS_closeReason_returned (server : Server) (ctx : Context)
    (containerID : String) (connections : Int) (r : Request) (conn : Conn)
    (err : Option GoError)
    (hadm : exceedsMax server (counter.add connections 1).2 = false)
    (hget : r.Method = "GET") (hup : server.upgrade r = Except.ok conn)
    (hret : (processWSConn server ctx conn (shellArgs server containerID)).2
      = Outcome.returned err) :
    (generateHandleWS server ctx containerID connections r).closeReason
      = closeReasonOf server ctx err := by
  simp [generateHandleWS, admission, session, hadm, hget, hup, hret]

/-- C4: when `processWSConn` returns `err` to the handler, the close reason is chosen by
comparing the error values, in this order: `err` equal to `ctx.Err()` gives "cancelation";
otherwise `webtty.ErrSlaveClosed` gives `server.factory.Name()`; otherwise
`webtty.ErrMasterClosed` gives "client"; otherwise an error gives "an error: " followed by
its message (so an error that only carries the message of a sentinel is not taken for
it). -/
theorem generateHandleWS_close_reason (server : Server) (ctx : Context)
    (containerID : String) (connections : Int) (r : Request) (conn : Conn)
    (err : Option GoError)
    (hadm : exceedsMax server (counter.add connections 1).2 = false)
    (hget : r.Method = "GET") (hup : server.upgrade r = Except.ok conn)
    (hret : (processWSConn server ctx conn (shellArgs server containerID)).2
      = Outcome.returned err) :
    (err = ctx.err →
      (generateHandleWS server ctx containerID connections r).closeReason = "cancelation") ∧
    (err ≠ ctx.err → err = some GoError.errSlaveClosed →
      (generateHandleWS server ctx containerID connections r).closeReason
        = server.factory.name) ∧
    (err ≠ ctx.err → err ≠ some GoError.errSlaveClosed →
      err = some GoError.errMasterClosed →
      (generateHandleWS server ctx containerID connections r).closeReason = "client") ∧
    (err ≠ ctx.err → err ≠ some GoError.errSlaveClosed →
      err ≠ some GoError.errMasterClosed →
      ∀ e, err = some e →
        (generateHandleWS server ctx containerID connections r).closeReason
          = "an error: " ++ e.Error) := by
  rw [generateHandleWS_closeReason_returned server ctx containerID connections r conn err
    hadm hget hup hret]
  refine ⟨?_, ?_, ?_, ?_⟩
  · intro h
    unfold closeReasonOf
    rw [if_pos h]
  · intro h1 h2
    unfold closeReasonOf
    rw [if_neg h1, if_pos h2]
  · intro h1 h2 h3
    unfold closeReasonOf
    rw [if_neg h1, if_neg h2, if_pos h3]
  · intro h1 h2 h3 e he
    unfold closeReasonOf
    rw [if_neg h1, if_neg h2, if_neg h3, he]
    rfl

/-- C4, witness: the bridge ends with `webtty.ErrMasterClosed` while the context is not
canceled; the close reason is "client". -/
theorem generateHandleWS_close_reason_witness :
    (generateHandleWS (exampleServer 0 "secret" true) { err := none } "c1" 0
        exampleRequest).closeReason = "client" :=
  (generateHandleWS_close_reason (exampleServer 0 "secret" true) { err := none } "c1" 0
    exampleRequest
    { readMessage := Except.ok (TextMessage, [123, 125]),
      remoteAddr := "10.0.0.7:5000",
      webttyNew := fun _ _ => Except.ok { run := fun _ => some GoError.errMasterClosed } }
    (some GoError.errMasterClosed) (by decide) rfl rfl
    (by simp [processWSConn, bridge, exampleServer, exampleFactory, shellArgs,
      titleVariables, mergeUnits, GoMap.get?, TextMessage])).2.2.1
    (by decide) (by decide) rfl

/-- C10: on an admitted GET request whose upgrade succeeds, `processWSConn` is called once,
with the arguments `[containerID, "bash"]` when `BashExist` answers true and
`[containerID, "sh"]` when it answers false; every call of `server.factory.New` of the run
gets exactly these arguments under the single key "arg", and such a call is made when the
handshake passes. -/
theorem generateHandleWS_shell_args (server : Server) (ctx : Context)
    (containerID : String) (connections : Int) (r : Request) (conn : Conn)
    (hadm : exceedsMax server (counter.add connections 1).2 = false)
    (hget : r.Method = "GET") (hup : server.upgrade r = Except.ok conn) :
    Event.processWSConn [containerID, if server.bashExist containerID then "bash" else "sh"]
      ∈ (generateHandleWS server ctx containerID connections r).trace ∧
    (∀ args, Event.processWSConn args ∈
        (generateHandleWS server ctx containerID connections r).trace →
      args = [containerID, if server.bashExist containerID then "bash" else "sh"]) ∧
    (∀ params, Event.factoryNew params ∈
        (generateHandleWS server ctx containerID connections r).trace →
      params = [("arg",
        [containerID, if server.bashExist containerID then "bash" else "sh"])]) ∧
    (HandshakeOk server conn →
      Event.factoryNew [("arg",
          [containerID, if server.bashExist containerID then "bash" else "sh"])]
        ∈ (generateHandleWS server ctx containerID connections r).trace) := by
  have htrace : (generateHandleWS server ctx containerID connections r).trace =
      Event.counterAdd 1 ::
        (([Event.logNewClient r.RemoteAddr (counter.add connections 1).2
              server.options.MaxConnection, Event.upgrade,
            Event.bashExist containerID, Event.processWSConn (shellArgs server containerID)]
          ++ (processWSConn server ctx conn (shellArgs server containerID)).1
          ++ [Event.connClose]) ++
          [Event.counterDone,
            Event.logClosed (generateHandleWS server ctx containerID connections r).closeReason
              r.RemoteAddr connections server.options.MaxConnection]) := by
    have h := session_trace_upgraded server ctx containerID r (counter.add connections 1).2
      conn hget hup
    simp only [counter.add] at hadm h
    simp [generateHandleWS, admission, hadm, h, counter.add, counter.done]
  have hargs : shellArgs server containerID
      = [containerID, if server.bashExist containerID then "bash" else "sh"] := rfl
  rw [← hargs, htrace]
  refine ⟨by simp, ?_, ?_, ?_⟩
  · intro args h
    simp only [List.mem_append, List.mem_cons, List.mem_singleton, List.not_mem_nil,
      or_false] at h
    rcases h with h | (((h | h | h | h) | h) | h) | h | h
    · cases h
    · cases h
    · cases h
    · cases h
    · cases h; rfl
    · rcases processWSConn_events server ctx conn _ _ h with
        h | h | h | h | h | ⟨_, h⟩ | ⟨_, h⟩ | h <;> cases h
    · cases h
    · cases h
    · cases h
  · intro params h
    simp only [List.mem_append, List.mem_cons, List.mem_singleton, List.not_mem_nil,
      or_false] at h
    rcases h with h | (((h | h | h | h) | h) | h) | h | h
    · cases h
    · cases h
    · cases h
    · cases h
    · cases h
    · rcases processWSConn_events server ctx conn _ _ h with
        h | h | h | h | h | ⟨_, h⟩ | ⟨_, h⟩ | h <;> cases h
      rfl
    · cases h
    · cases h
    · cases h
  · rintro ⟨initLine, init, hr, hu⟩
    have hin : Event.factoryNew [("arg", shellArgs server containerID)] ∈
        (processWSConn server ctx conn (shellArgs server containerID)).1 := by
      cases hf : server.factory.new [("arg", shellArgs server containerID)] <;>
        simp [processWSConn, hr, hu, hf]
    simp [hin]

/-- C10, witness: the probe answers false, the arguments are `[c1, sh]`. -/
theorem generateHandleWS_shell_args_witness :
    Event.processWSConn ["c1", "sh"] ∈
      (generateHandleWS (exampleServer 0 "secret" false) { err := none } "c1" 0
        exampleRequest).trace :=
  (generateHandleWS_shell_args (exampleServer 0 "secret" false) { err := none } "c1" 0
    exampleRequest
    { readMessage := Except.ok (TextMessage, [123, 125]),
      remoteAddr := "10.0.0.7:5000",
      webttyNew := fun _ _ => Except.ok { run := fun _ => some GoError.errMasterClosed } }
    (by decide) rfl rfl).1

/-! ## Interleaved invocations: the admission bound -/

theorem Aged_weaken (l : List Invocation) (off off2 : Int) (h : off2 ≤ off)
    (ha : Aged off l) : Aged off2 l := by
  induction l generalizing off off2 with
  | nil => trivial
  | cons x xs ih =>
    obtain ⟨h1, h2⟩ := ha
    exact ⟨by omega, ih (off + 1) (off2 + 1) (by omega) h2⟩

theorem Aged_append (l : List Invocation) (off : Int) (x : Invocation)
    (ha : Aged off l) (hx : off + (l.length : Int) + 1 ≤ x.num) : Aged off (l ++ [x]) := by
  induction l generalizing off with
  | nil =>
    simp at hx
    exact ⟨hx, trivial⟩
  | cons y ys ih =>
    obtain ⟨h1, h2⟩ := ha
    refine ⟨h1, ih (off + 1) h2 ?_⟩
    simp only [List.length_cons, Nat.cast_add, Nat.cast_one] at hx
    omega

theorem Aged_set (l : List Invocation) (off : Int) (i : Nat) (inv x : Invocation)
    (ha : Aged off l) (hi : l[i]? = some inv) (hx : x.num = inv.num) :
    Aged off (l.set i x) := by
  induction l generalizing off i with
  | nil => simp at hi
  | cons y ys ih =>
    obtain ⟨h1, h2⟩ := ha
    cases i with
    | zero =>
      simp only [List.getElem?_cons_zero, Option.some.injEq] at hi
      subst hi
      exact ⟨by rw [hx]; exact h1, h2⟩
    | succ j =>
      simp only [List.getElem?_cons_succ] at hi
      exact ⟨h1, ih (off + 1) j h2 hi⟩

theorem Aged_eraseIdx (l : List Invocation) (off : Int) (i : Nat) (ha : Aged off l) :
    Aged off (l.eraseIdx i) := by
  induction l generalizing off i with
  | nil => trivial
  | cons y ys ih =>
    obtain ⟨h1, h2⟩ := ha
    cases i with
    | zero => exact Aged_weaken ys (off + 1) off (by omega) h2
    | succ j => exact ⟨h1, ih (off + 1) j h2⟩

theorem Aged_countP (l : List Invocation) (off maxConnection : Int)
    (p : Invocation → Bool) (ha : Aged off l)
    (hp : ∀ inv ∈ l, p inv = true → inv.num ≤ maxConnection) :
    (l.countP p : Int) + off ≤ maxConnection ∨ l.countP p = 0 := by
  induction l generalizing off with
  | nil => exact Or.inr rfl
  | cons x xs ih =>
    obtain ⟨h1, h2⟩ := ha
    have ih1 := ih (off + 1) h2 (fun inv hinv => hp inv (List.mem_cons_of_mem x hinv))
    by_cases hx : p x = true
    · have hle := hp x (List.mem_cons_self x xs) hx
      left
      rw [List.countP_cons_of_pos _ _ hx]
      rcases ih1 with h | h
      · push_cast
        omega
      · rw [h]
        push_cast
        omega
    · rw [List.countP_cons_of_neg _ _ hx]
      rcases ih1 with h | h
      · left
        omega
      · exact Or.inr h

theorem Sound_init (server : Server) : Sound server System.init := by
  refine ⟨rfl, trivial, ?_⟩
  intro inv hinv
  simp [System.init] at hinv

theorem mem_of_get? (l : List Invocation) (i : Nat) (inv : Invocation)
    (h : l[i]? = some inv) : inv ∈ l := by
  induction l generalizing i with
  | nil => simp at h
  | cons y ys ih =>
    cases i with
    | zero =>
      simp only [List.getElem?_cons_zero, Option.some.injEq] at h
      subst h
      exact List.mem_cons_self _ _
    | succ j =>
      simp only [List.getElem?_cons_succ] at h
      exact List.mem_cons_of_mem _ (ih j h)

theorem Sound_step (server : Server) (ctx : Context) (containerID : String)
    (s s1 : System) (a : Action) (hs : Sound server s)
    (h : step server ctx containerID s a = some s1) : Sound server s1 := by
  obtain ⟨hc, hage, hph⟩ := hs
  cases a with
  | add r =>
    simp only [step, Option.some.injEq] at h
    subst h
    refine ⟨?_, ?_, ?_⟩
    · simp [counter.add, hc]
    · exact Aged_append _ 0 _ hage (by simp [counter.add, hc])
    · intro inv hinv
      rcases List.mem_append.1 hinv with h1 | h1
      · exact hph inv h1
      · simp only [List.mem_singleton] at h1
        subst h1
        exact ⟨by simp [Phase.pastAdmission], by simp⟩
  | check i =>
    simp only [step] at h
    cases hget : s.running[i]? with
    | none => simp [hget] at h
    | some inv0 =>
      simp only [hget] at h
      by_cases hres : inv0.phase = Phase.reserved
      · simp only [hres, if_true] at h
        by_cases hex : exceedsMax server inv0.num = true
        · simp only [hex, if_true, Option.some.injEq] at h
          subst h
          refine ⟨by simpa using hc, Aged_set _ 0 i inv0 _ hage hget rfl, ?_⟩
          intro inv hinv
          rcases List.mem_or_eq_of_mem_set hinv with h1 | h1
          · exact hph inv h1
          · subst h1
            exact ⟨by simp [Invocation.reject, Phase.pastAdmission],
              fun _ => ⟨hex, rfl⟩⟩
        · have hex2 : exceedsMax server inv0.num = false := by simpa using hex
          simp only [hex2, Bool.false_eq_true, if_false, Option.some.injEq] at h
          subst h
          refine ⟨by simpa using hc, Aged_set _ 0 i inv0 _ hage hget rfl, ?_⟩
          intro inv hinv
          rcases List.mem_or_eq_of_mem_set hinv with h1 | h1
          · exact hph inv h1
          · subst h1
            exact ⟨fun _ => by simpa [Invocation.letPass] using hex2,
              by simp [Invocation.letPass]⟩
      · simp [hres] at h
  | body i =>
    simp only [step] at h
    cases hget : s.running[i]? with
    | none => simp [hget] at h
    | some inv0 =>
      simp only [hget] at h
      by_cases hadm : inv0.phase = Phase.admitted
      · simp only [hadm, if_true, Option.some.injEq] at h
        subst h
        refine ⟨by simpa using hc, Aged_set _ 0 i inv0 _ hage hget rfl, ?_⟩
        intro inv hinv
        rcases List.mem_or_eq_of_mem_set hinv with h1 | h1
        · exact hph inv h1
        · subst h1
          have h0 := (hph inv0 (mem_of_get? _ i inv0 hget)).1
            (by simp [hadm, Phase.pastAdmission])
          exact ⟨fun _ => by simpa [Invocation.finish] using h0,
            by simp [Invocation.finish]⟩
      · simp [hadm] at h
  | done i =>
    simp only [step] at h
    cases hget : s.running[i]? with
    | none => simp [hget] at h
    | some inv0 =>
      simp only [hget] at h
      by_cases hfin : inv0.phase = Phase.rejected ∨ inv0.phase = Phase.finished
      · simp only [hfin, if_true, Option.some.injEq] at h
        subst h
        have hlt : i < s.running.length := by
          rcases Nat.lt_or_ge i s.running.length with hlt | hge
          · exact hlt
          · rw [List.getElem?_eq_none hge] at hget
            cases hget
        refine ⟨?_, Aged_eraseIdx _ 0 i hage, ?_⟩
        · simp only [counter.done, List.length_eraseIdx, hlt, if_true, hc]
          omega
        · intro inv hinv
          exact hph inv (List.mem_of_mem_eraseIdx hinv)
      · simp [hfin] at h

theorem Sound_runSchedule (server : Server) (ctx : Context) (containerID : String)
    (schedule : List Action) (s s1 : System) (hs : Sound server s)
    (h : runSchedule server ctx containerID s schedule = some s1) : Sound server s1 := by
  induction schedule generalizing s with
  | nil =>
    simp only [runSchedule, Option.some.injEq] at h
    subst h
    exact hs
  | cons a rest ih =>
    simp only [runSchedule] at h
    cases hstep : step server ctx containerID s a with
    | none => simp [hstep] at h
    | some s2 =>
      simp only [hstep] at h
      exact ih s2 (Sound_step server ctx containerID s s2 a hs hstep) h

/-- C2: with a maximum `M > 0`, in every state that interleaved handler invocations reach
from the empty system, at most `M` invocations have passed the admission check and not yet
run their deferred `counter.done()`; an invocation whose `num` exceeds `M` is only ever
waiting for its check or rejected with "exceeding max number of connections"; and an
invocation that runs `counter.add(1)` while `M` admitted ones are active gets a `num`
above `M`, so its admission check rejects it with that close reason. -/
theorem admitted_sessions_bounded (server : Server) (ctx : Context) (containerID : String)
    (schedule : List Action) (s : System)
    (hmax : 0 < server.options.MaxConnection)
    (hrun : runSchedule server ctx containerID System.init schedule = some s) :
    (s.admittedActive : Int) ≤ server.options.MaxConnection ∧
    (∀ inv ∈ s.running, inv.num > server.options.MaxConnection →
      inv.phase = Phase.reserved ∨
      (inv.phase = Phase.rejected ∧
        inv.closeReason = "exceeding max number of connections")) ∧
    (∀ r, (s.admittedActive : Int) = server.options.MaxConnection →
      ∃ inv,
        step server ctx containerID s (Action.add r)
          = some { connections := s.connections + 1, running := s.running ++ [inv] } ∧
        inv.num > server.options.MaxConnection ∧
        step server ctx containerID
            { connections := s.connections + 1, running := s.running ++ [inv] }
            (Action.check s.running.length)
          = some { connections := s.connections + 1,
                   running := s.running ++ [inv.reject] } ∧
        inv.reject.phase = Phase.rejected ∧
        inv.reject.closeReason = "exceeding max number of connections") := by
  obtain ⟨hc, hage, hph⟩ :=
    Sound_runSchedule server ctx containerID schedule System.init s (Sound_init server) hrun
  have hnum : ∀ inv ∈ s.running, inv.phase.pastAdmission = true →
      inv.num ≤ server.options.MaxConnection := by
    intro inv hinv hp
    have h := (hph inv hinv).1 hp
    simp only [exceedsMax, Bool.and_eq_false_imp, decide_eq_true_eq, decide_eq_false_iff_not,
      not_lt] at h
    have h2 := h (by omega)
    omega
  have hbound : (s.admittedActive : Int) ≤ server.options.MaxConnection := by
    rcases Aged_countP s.running 0 server.options.MaxConnection
      (fun inv => inv.phase.pastAdmission) hage hnum with h | h
    · simpa [System.admittedActive] using h
    · simp only [System.admittedActive, h]
      push_cast
      omega
  refine ⟨hbound, ?_, ?_⟩
  · intro inv hinv hgt
    have hex : exceedsMax server inv.num = true := by
      rw [exceedsMax_iff]
      exact ⟨by omega, hgt⟩
    have h1 := (hph inv hinv).1
    have h2 := (hph inv hinv).2
    cases hphase : inv.phase with
    | reserved => exact Or.inl rfl
    | rejected => exact Or.inr ⟨rfl, (h2 hphase).2⟩
    | admitted =>
      have := h1 (by simp [hphase, Phase.pastAdmission])
      rw [hex] at this
      cases this
    | finished =>
      have := h1 (by simp [hphase, Phase.pastAdmission])
      rw [hex] at this
      cases this
  · intro r hfull
    have hlen : (s.admittedActive : Int) ≤ (s.running.length : Int) := by
      have := List.countP_le_length (fun inv : Invocation => inv.phase.pastAdmission)
        (l := s.running)
      simp only [System.admittedActive]
      exact_mod_cast this
    have hgt : s.connections + 1 > server.options.MaxConnection := by omega
    have hex : exceedsMax server (s.connections + 1) = true := by
      rw [exceedsMax_iff]
      exact ⟨by omega, hgt⟩
    refine ⟨{ request := r, num := s.connections + 1, phase := Phase.reserved,
              closeReason := "unknown reason" }, ?_, hgt, ?_, rfl, rfl⟩
    · simp [step, counter.add]
    · simp [step, hex, Invocation.reject]

/-- C2, witness: maximum 1; one invocation is admitted and a second one has reserved its
slot: one admitted session is active. -/
theorem admitted_sessions_bounded_witness :
    (System.admittedActive
      { connections := 2,
        running := [{ request := exampleRequest, num := 1, phase := Phase.admitted,
                      closeReason := "unknown reason" },
                    { request := exampleRequest, num := 2, phase := Phase.reserved,
                      closeReason := "unknown reason" }] } : Int) ≤ 1 :=
  (admitted_sessions_bounded (exampleServer 1 "secret" true) { err := none } "c1"
    [Action.add exampleRequest, Action.check 0, Action.add exampleRequest]
    { connections := 2,
      running := [{ request := exampleRequest, num := 1, phase := Phase.admitted,
                    closeReason := "unknown reason" },
                  { request := exampleRequest, num := 2, phase := Phase.reserved,
                    closeReason := "unknown reason" }] }
    (by decide) rfl).1

end Route
